import Mathlib

/-!
Verification model of the redux-ui-state core (keyed ephemeral state
subsystem). JavaScript objects are modelled as association lists
`List (String × V)` over an arbitrary value type `V`; an absent key is
`Option.none`. `Object.assign` copies own enumerable properties in order,
overwriting existing keys in place and appending new ones, which `setKey`
and `objAssignInto` mirror. Thrown errors are modelled with `Except`,
`console.warn` with a Boolean flag in the result.
-/

namespace ReduxUIState

/-- JavaScript undefined-coalescing choice: the first operand unless it is
absent (undefined), in which case the second. -/
def jsOr {V : Type} (a b : Option V) : Option V :=
  match a with
  | some v => some v
  | none => b

/-- Property read `o[k]` on an object: the value stored at the first (and,
for well-formed objects, only) occurrence of key `k`. -/
def lookupKey {V : Type} : List (String × V) → String → Option V
  | [], _ => none
  | (k0, v) :: rest, k => if k = k0 then some v else lookupKey rest k

/-- Property write `o[k] = v`: overwrite the existing entry in place, or
append a new entry when the key is absent (JavaScript property order). -/
def setKey {V : Type} : List (String × V) → String → V → List (String × V)
  | [], k, v => [(k, v)]
  | (k0, v0) :: rest, k, v =>
      if k = k0 then (k, v) :: rest else (k0, v0) :: setKey rest k v

/-- Copying phase of `Object.assign(target, src)`: assign each own property
of `src` into `target`, in order. -/
def objAssignInto {V : Type} (target src : List (String × V)) : List (String × V) :=
  src.foldl (fun acc kv => setKey acc kv.1 kv.2) target

/-- `src/utils.ts` line 17: `merge = (obj1, obj2) => Object.assign({}, obj1, obj2)`.
A fresh empty object receives the properties of `obj1`, then of `obj2`. -/
def merge {V : Type} (obj1 obj2 : List (String × V)) : List (String × V) :=
  objAssignInto (objAssignInto [] obj1) obj2

/-- The runtime value held by the `uiStateId` prop: a string, a function of
the props (which at runtime may return a string or undefined, hence
`Option String`), or any other JavaScript value. For an `other` value only
its truthiness matters downstream, carried by the Boolean field. -/
inductive Id (P : Type) where
  | str : String → Id P
  | func : (P → Option String) → Id P
  | other : Bool → Id P

/-- `getStringFromId(id, props)`: the `typeof id` chain becomes a
constructor match — a string is returned unchanged, a function is invoked
with the props, anything else yields undefined. -/
def getStringFromId {P : Type} : Id P → P → Option String
  | Id.str s, _ => some s
  | Id.func f, p => f p
  | Id.other _, _ => none

/-- JavaScript truthiness of the `uiStateId` prop (`!props.uiStateId`):
an absent or undefined prop and the empty string are falsy; a function is
always truthy; an `other` value carries its own truthiness. -/
def jsIdTruthy {P : Type} : Option (Id P) → Bool
  | none => false
  | some (Id.str s) => !(s == "")
  | some (Id.func _) => true
  | some (Id.other t) => t

/-- The value `getStringFromId(props.uiStateId, props)` would produce,
treating an absent prop as undefined. -/
def resolveOpt {P : Type} (uiStateId : Option (Id P)) (props : P) : Option String :=
  match uiStateId with
  | some i => getStringFromId i props
  | none => none

/-- `idSelector(_, props)`: throw when `props.uiStateId` is falsy,
otherwise resolve it via `getStringFromId`. The props object is split into
its `uiStateId` field and the value `P` handed to id functions. -/
def idSelector {P : Type} (uiStateId : Option (Id P)) (props : P) :
    Except String (Option String) :=
  if jsIdTruthy uiStateId then
    match uiStateId with
    | some i => Except.ok (getStringFromId i props)
    | none => Except.ok none
  else
    Except.error "Could not find uiStateId prop for idSelector in Redux UI State"

/-- The branch of the Redux store governed by the redux-ui-state reducer:
a components dictionary from string key to an arbitrary state object. -/
structure UIStateBranch (V : Type) where
  components : List (String × List (String × V))

/-- The default store shape: the branch lives at the well-known top-level
key (`DEFAULT_BRANCH_NAME`); it is absent when the reducer is not wired. -/
structure AppState (V : Type) where
  uiState : Option (UIStateBranch V)

/-- The props seen by the selection pipeline: the `uiStateId` prop, the
optional `uiStateBranchSelector` override, and the rest of the props (the
value handed to id functions). -/
structure ConnectProps (V P : Type) where
  uiStateId : Option (Id P)
  uiStateBranchSelector : Option (AppState V → Option (UIStateBranch V))
  ownProps : P

/-- `defaultUIStateBranchSelector(state)`: reads `state[DEFAULT_BRANCH_NAME]`,
which is undefined when the reducer is not composed into the store. -/
def defaultUIStateBranchSelector {V : Type} (state : AppState V) :
    Option (UIStateBranch V) :=
  state.uiState

/-- `uiStateBranchSelectorSelector(_, props)`:
`props && props.uiStateBranchSelector || defaultUIStateBranchSelector` — a
caller-supplied locator function (truthy) wins, otherwise the default. -/
def uiStateBranchSelectorSelector {V P : Type} (props : Option (ConnectProps V P)) :
    AppState V → Option (UIStateBranch V) :=
  match props with
  | some pr =>
      match pr.uiStateBranchSelector with
      | some f => f
      | none => defaultUIStateBranchSelector
  | none => defaultUIStateBranchSelector

/-- `uiStateBranchSelector`: apply the chosen locator to the state and
throw when it yields no branch. The reselect memoization wrapper is
elided; the modelled function is the composed input-output behavior. -/
def uiStateBranchSelector {V P : Type} (state : AppState V)
    (props : Option (ConnectProps V P)) : Except String (UIStateBranch V) :=
  match uiStateBranchSelectorSelector props state with
  | none => Except.error "redux-ui-state could not select UI state branch from the store"
  | some b => Except.ok b

/-- `uiStateComponentsSelector`: extracts `components` from the branch. -/
def uiStateComponentsSelector {V P : Type} (state : AppState V)
    (props : Option (ConnectProps V P)) :
    Except String (List (String × List (String × V))) :=
  (uiStateBranchSelector state props).map UIStateBranch.components

/-- JavaScript property-key coercion: indexing with undefined reads the
key named undefined. -/
def jsKey : Option String → String
  | some s => s
  | none => "undefined"

/-- `uiStateSelector`: looks the resolved id up in the components map. The
`console.warn` on a falsy entry is modelled as the Boolean first component
of the result (stored entries are objects, hence truthy, so the warning
fires exactly on an absent key); the entry itself is the second component. -/
def uiStateSelector {V P : Type} (state : AppState V) (props : ConnectProps V P) :
    Except String (Bool × Option (List (String × V))) :=
  match uiStateComponentsSelector state (some props) with
  | Except.error e => Except.error e
  | Except.ok comps =>
      match idSelector props.uiStateId props.ownProps with
      | Except.error e => Except.error e
      | Except.ok i =>
          let uiState := lookupKey comps (jsKey i)
          Except.ok (uiState.isNone, uiState)

/-- Modelled from the spec: the Mutation Action built by the `setUIState`
action creator of `actions.ts`, which is not under src — payload
`\x7b id, state \x7d` with the resolved id (possibly undefined) and a
shallow partial state. -/
inductive ReduxAction (V : Type) where
  | setUIState : Option String → List (String × V) → ReduxAction V
  | otherAction : ReduxAction V

/-- `setUIStateSelector(dispatch, props)`: returns a setter closing over
the construction-time props. Dispatch is modelled as a trace — the setter
yields the list of actions submitted to it (or the thrown error). -/
def setUIStateSelector {V P : Type} (uiStateId : Option (Id P)) (props : P) :
    List (String × V) → Except String (List (ReduxAction V)) :=
  fun state =>
    (idSelector uiStateId props).map (fun i => [ReduxAction.setUIState i state])

/-- Modelled from the spec: the reducer of `reducer.ts` (`createReducer`),
which is not under src. On the Mutation Action it merges the partial state
into the prior entry for the id (implicit prior `\x7b\x7d` when absent) and
replaces only that entry; other actions leave the branch unchanged; with no
prior branch it starts from empty components. -/
def reduce {V : Type} (branch : Option (UIStateBranch V)) (a : ReduxAction V) :
    UIStateBranch V :=
  let b := branch.getD (UIStateBranch.mk [])
  match a with
  | ReduxAction.setUIState i st =>
      let prior := (lookupKey b.components (jsKey i)).getD []
      UIStateBranch.mk (setKey b.components (jsKey i) (merge prior st))
  | ReduxAction.otherAction => b

/-- A heap of JavaScript objects, for reference-identity facts: references
are indices, allocation appends. -/
abbrev Heap (V : Type) := List (List (String × V))

/-- `merge` with allocation made explicit: `Object.assign(\x7b\x7d, o1, o2)`
allocates a fresh object, copies both inputs into it and returns the new
reference; no existing cell is written. -/
def mergeAlloc {V : Type} (h : Heap V) (r1 r2 : Nat) : Heap V × Nat :=
  (h ++ [merge (h.getD r1 []) (h.getD r2 [])], h.length)

/-- Whether an `Except` computation completed without throwing. -/
def exceptOk {E A : Type} : Except E A → Bool
  | Except.ok _ => true
  | Except.error _ => false

theorem lookupKey_eq_none_of_not_mem {V : Type} {l : List (String × V)} {k : String}
    (h : k ∉ l.map Prod.fst) : lookupKey l k = none := by
  induction l with
  | nil => rfl
  | cons hd tl ih =>
    obtain ⟨k0, v0⟩ := hd
    simp only [List.map_cons, List.mem_cons] at h
    push_neg at h
    simp [lookupKey, h.1, ih h.2]

theorem lookupKey_setKey {V : Type} (o : List (String × V)) (k k' : String) (v : V) :
    lookupKey (setKey o k v) k' = if k' = k then some v else lookupKey o k' := by
  induction o with
  | nil => simp [setKey, lookupKey]
  | cons hd tl ih =>
    obtain ⟨k0, v0⟩ := hd
    by_cases h : k = k0
    · subst h
      by_cases h' : k' = k <;> simp [setKey, lookupKey, h']
    · by_cases h' : k' = k0
      · subst h'
        have : ¬ k' = k := fun hc => h hc.symm
        simp [setKey, lookupKey, h, this]
      · simp [setKey, lookupKey, h, h', ih]

theorem lookupKey_objAssignInto {V : Type} (src : List (String × V))
    (t : List (String × V)) (k : String) (h : (src.map Prod.fst).Nodup) :
    lookupKey (objAssignInto t src) k = jsOr (lookupKey src k) (lookupKey t k) := by
  induction src generalizing t with
  | nil => simp [objAssignInto, lookupKey, jsOr]
  | cons hd tl ih =>
    obtain ⟨k0, v0⟩ := hd
    simp only [List.map_cons, List.nodup_cons] at h
    have hstep : objAssignInto t ((k0, v0) :: tl) = objAssignInto (setKey t k0 v0) tl := rfl
    rw [hstep, ih _ h.2, lookupKey_setKey]
    by_cases hk : k = k0
    · subst hk
      have hnone : lookupKey tl k = none := lookupKey_eq_none_of_not_mem h.1
      simp [lookupKey, jsOr, hnone]
    · simp [lookupKey, jsOr, hk]

theorem jsOr_none_right {V : Type} (a : Option V) : jsOr a none = a := by
  cases a <;> rfl

theorem lookupKey_merge {V : Type} (o1 o2 : List (String × V)) (k : String)
    (h1 : (o1.map Prod.fst).Nodup) (h2 : (o2.map Prod.fst).Nodup) :
    lookupKey (merge o1 o2) k = jsOr (lookupKey o2 k) (lookupKey o1 k) := by
  unfold merge
  rw [lookupKey_objAssignInto _ _ _ h2, lookupKey_objAssignInto _ _ _ h1]
  simp [lookupKey, jsOr_none_right]

theorem mem_setKey_of_ne {V : Type} {o : List (String × V)} {e : String × V}
    (he : e ∈ o) (k : String) (v : V) (hne : e.1 ≠ k) : e ∈ setKey o k v := by
  induction o with
  | nil => cases he
  | cons hd tl ih =>
    obtain ⟨k0, v0⟩ := hd
    by_cases h : k = k0
    · subst h
      rcases List.mem_cons.mp he with h1 | h1
      · exact absurd (congrArg Prod.fst h1) (by simpa using hne)
      · simp [setKey, List.mem_cons, h1]
    · rcases List.mem_cons.mp he with h1 | h1
      · simp [setKey, h, List.mem_cons, h1]
      · simp [setKey, h, List.mem_cons, ih h1]

theorem exceptOk_map {E A B : Type} (f : A → B) (x : Except E A) :
    exceptOk (x.map f) = exceptOk x := by
  cases x <;> rfl

theorem exceptOk_idSelector {P : Type} (u : Option (Id P)) (p : P) :
    exceptOk (idSelector u p) = jsIdTruthy u := by
  cases hu : jsIdTruthy u
  · simp [idSelector, hu, exceptOk]
  · cases u with
    | none => simp [jsIdTruthy] at hu
    | some i => simp [idSelector, hu, exceptOk]

/-- C1: for every prior state object `S` and partial update `P` with
well-formed (duplicate-free) keys, `merge S P` is the shallow union — a key
looks up to the `P` value when present there, otherwise to the `S` value,
and no key of `S` is deleted. -/
theorem merge_is_shallow_union {V : Type} (S P : List (String × V))
    (hS : (S.map Prod.fst).Nodup) (hP : (P.map Prod.fst).Nodup) (k : String) :
    lookupKey (merge S P) k = jsOr (lookupKey P k) (lookupKey S k)
    ∧ (lookupKey P k = none → lookupKey (merge S P) k = lookupKey S k)
    ∧ (∀ v, lookupKey P k = some v → lookupKey (merge S P) k = some v)
    ∧ ((lookupKey S k).isSome → (lookupKey (merge S P) k).isSome) := by
  have hm := lookupKey_merge S P k hS hP
  refine ⟨hm, ?_, ?_, ?_⟩
  · intro hp
    rw [hm, hp]
    rfl
  · intro v hp
    rw [hm, hp]
    rfl
  · intro hs
    rw [hm]
    cases hp : lookupKey P k <;> simp [jsOr, hp, hs]

theorem merge_is_shallow_union_check :
    lookupKey (merge [("a", (1 : Nat)), ("b", 2)] [("b", 3), ("c", 4)]) "a" = some 1
    ∧ lookupKey (merge [("a", (1 : Nat)), ("b", 2)] [("b", 3), ("c", 4)]) "b" = some 3 := by
  have ha := merge_is_shallow_union [("a", (1 : Nat)), ("b", 2)] [("b", 3), ("c", 4)]
    (by decide) (by decide) "a"
  have hb := merge_is_shallow_union [("a", (1 : Nat)), ("b", 2)] [("b", 3), ("c", 4)]
    (by decide) (by decide) "b"
  refine ⟨?_, hb.2.2.1 3 (by decide)⟩
  rw [ha.2.1 (by decide)]
  decide

/-- C2: `getStringFromId` returns a string id unchanged, invokes a function
id on the props and returns its result, and returns undefined for any other
value. -/
theorem getStringFromId_identity_resolution {P : Type} (s : String)
    (f : P → Option String) (p : P) (t : Bool) :
    getStringFromId (Id.str s) p = some s
    ∧ getStringFromId (Id.func f) p = f p
    ∧ getStringFromId (Id.other t) p = none :=
  ⟨rfl, rfl, rfl⟩

/-- C8: the branch-locator selection stage returns the caller-supplied
locator from the props whenever one is present, and the default top-level
locator otherwise (including when the props object is absent); the result
is always exactly one of the two, never a merge. -/
theorem uiStateBranchSelectorSelector_precedence {V P : Type}
    (f : AppState V → Option (UIStateBranch V)) (u : Option (Id P)) (p : P) :
    uiStateBranchSelectorSelector (some (ConnectProps.mk u (some f) p)) = f
    ∧ uiStateBranchSelectorSelector (some (ConnectProps.mk u none p))
        = defaultUIStateBranchSelector (V := V)
    ∧ uiStateBranchSelectorSelector (V := V) (P := P) none
        = defaultUIStateBranchSelector :=
  ⟨rfl, rfl, rfl⟩

/-- C9: `idSelector` throws exactly when the `uiStateId` prop is absent or
falsy — in particular the empty-string literal throws — while a function id
never throws: its result, be it undefined or the empty string, is returned
unresolved. -/
theorem idSelector_throws_iff_prop_falsy {P : Type} (p : P)
    (f : P → Option String) (s : String) :
    exceptOk (idSelector (P := P) none p) = false
    ∧ exceptOk (idSelector (some (Id.str "")) p) = false
    ∧ (s ≠ "" → idSelector (some (Id.str s)) p = Except.ok (some s))
    ∧ idSelector (some (Id.func f)) p = Except.ok (f p) := by
  refine ⟨rfl, rfl, ?_, rfl⟩
  intro hs
  have hb : (s == "") = false := beq_eq_false_iff_ne.mpr hs
  simp [idSelector, jsIdTruthy, hb, getStringFromId]

theorem idSelector_throws_iff_prop_falsy_check :
    idSelector (some (Id.str "x")) () = Except.ok (some "x")
    ∧ idSelector (some (Id.func (fun _ : Unit => none))) () = Except.ok none := by
  have h := idSelector_throws_iff_prop_falsy () (fun _ : Unit => none) "x"
  exact ⟨h.2.2.1 (by decide), h.2.2.2⟩

/-- C3: when the chosen branch locator yields no branch from the state,
`uiStateBranchSelector` throws synchronously (never returns an empty or
default branch); when it yields a branch, that branch is returned. -/
theorem uiStateBranchSelector_fails_loudly {V P : Type} (state : AppState V)
    (props : Option (ConnectProps V P)) :
    (uiStateBranchSelectorSelector props state = none →
      ∃ e, uiStateBranchSelector state props = Except.error e)
    ∧ (∀ b, uiStateBranchSelectorSelector props state = some b →
      uiStateBranchSelector state props = Except.ok b) := by
  constructor
  · intro h
    refine ⟨"redux-ui-state could not select UI state branch from the store", ?_⟩
    simp [uiStateBranchSelector, h]
  · intro b h
    simp [uiStateBranchSelector, h]

theorem uiStateBranchSelector_fails_loudly_check :
    (∃ e, uiStateBranchSelector (V := Nat) (P := Unit) (AppState.mk none) none
      = Except.error e)
    ∧ uiStateBranchSelector (V := Nat) (P := Unit)
        (AppState.mk (some (UIStateBranch.mk [("a", [("x", 1)])]))) none
      = Except.ok (UIStateBranch.mk [("a", [("x", 1)])]) := by
  constructor
  · exact (uiStateBranchSelector_fails_loudly (AppState.mk none) none).1 rfl
  · exact (uiStateBranchSelector_fails_loudly
      (AppState.mk (some (UIStateBranch.mk [("a", [("x", 1)])]))) none).2 _ rfl

/-- C4: with the branch in place and a resolved (nonempty string) id,
`uiStateSelector` does not throw — an id absent from the components map
yields the warning flag and undefined, an id present yields its stored
state value with no warning. -/
theorem uiStateSelector_missing_key_warns {V P : Type}
    (comps : List (String × List (String × V))) (s : String) (p : P)
    (hs : s ≠ "") :
    (lookupKey comps s = none →
      uiStateSelector (AppState.mk (some (UIStateBranch.mk comps)))
        (ConnectProps.mk (some (Id.str s)) none p) = Except.ok (true, none))
    ∧ (∀ v, lookupKey comps s = some v →
      uiStateSelector (AppState.mk (some (UIStateBranch.mk comps)))
        (ConnectProps.mk (some (Id.str s)) none p) = Except.ok (false, some v)) := by
  have hb : (s == "") = false := beq_eq_false_iff_ne.mpr hs
  have hid : idSelector (some (Id.str s)) p = Except.ok (some s) := by
    simp [idSelector, jsIdTruthy, hb, getStringFromId]
  constructor
  · intro h
    simp [uiStateSelector, uiStateComponentsSelector, uiStateBranchSelector,
      uiStateBranchSelectorSelector, defaultUIStateBranchSelector, Except.map,
      hid, jsKey, h]
  · intro v h
    simp [uiStateSelector, uiStateComponentsSelector, uiStateBranchSelector,
      uiStateBranchSelectorSelector, defaultUIStateBranchSelector, Except.map,
      hid, jsKey, h]

theorem uiStateSelector_missing_key_warns_check :
    uiStateSelector (AppState.mk (some (UIStateBranch.mk [("a", [("x", (1 : Nat))])])))
      (ConnectProps.mk (some (Id.str "b")) none ()) = Except.ok (true, none)
    ∧ uiStateSelector (AppState.mk (some (UIStateBranch.mk [("a", [("x", (1 : Nat))])])))
      (ConnectProps.mk (some (Id.str "a")) none ()) = Except.ok (false, some [("x", 1)]) := by
  constructor
  · exact (uiStateSelector_missing_key_warns [("a", [("x", (1 : Nat))])] "b" ()
      (by decide)).1 (by decide)
  · exact (uiStateSelector_missing_key_warns [("a", [("x", (1 : Nat))])] "a" ()
      (by decide)).2 [("x", 1)] (by decide)

/-- C6: a Mutation Action for id `i` leaves the entry of every other id
unchanged by lookup, preserves every other entry of the components list
itself (the pure analogue of reference-unchanged), and touches only the
entry for `i`, which becomes the merge of its prior value and the payload —
the branch is never replaced wholesale. -/
theorem reduce_key_isolation {V : Type} (br : UIStateBranch V) (i : String)
    (st : List (String × V)) (b : String) (hb : b ≠ i) :
    lookupKey ((reduce (some br) (ReduxAction.setUIState (some i) st)).components) b
      = lookupKey br.components b
    ∧ (∀ e ∈ br.components, e.1 ≠ i →
        e ∈ (reduce (some br) (ReduxAction.setUIState (some i) st)).components)
    ∧ lookupKey ((reduce (some br) (ReduxAction.setUIState (some i) st)).components) i
      = some (merge ((lookupKey br.components i).getD []) st) := by
  refine ⟨?_, ?_, ?_⟩
  · simp [reduce, jsKey, lookupKey_setKey, hb]
  · intro e he hne
    simp only [reduce, jsKey]
    exact mem_setKey_of_ne he i _ hne
  · simp [reduce, jsKey, lookupKey_setKey]

theorem reduce_key_isolation_check :
    lookupKey ((reduce (some (UIStateBranch.mk [("b", [("x", (1 : Nat))])]))
      (ReduxAction.setUIState (some "a") [("y", 2)])).components) "b"
      = some [("x", 1)] := by
  have h := reduce_key_isolation (UIStateBranch.mk [("b", [("x", (1 : Nat))])])
    "a" [("y", 2)] "b" (by decide)
  rw [h.1]
  decide

/-- C7: a setter built by `setUIStateSelector` from a resolvable
construction-time `uiStateId` prop, when invoked with a partial state,
submits exactly one Mutation Action to dispatch, carrying the id resolved
from the captured props and the given partial state as payload. -/
theorem setUIStateSelector_dispatches_one_action {V P : Type}
    (u : Option (Id P)) (p : P) (st : List (String × V))
    (h : jsIdTruthy u = true) :
    setUIStateSelector u p st = Except.ok [ReduxAction.setUIState (resolveOpt u p) st] := by
  cases u with
  | none => simp [jsIdTruthy] at h
  | some i => simp [setUIStateSelector, idSelector, h, resolveOpt, Except.map]

theorem setUIStateSelector_dispatches_one_action_check :
    setUIStateSelector (V := Nat) (some (Id.str "k")) () [("x", 5)]
      = Except.ok [ReduxAction.setUIState (some "k") [("x", 5)]] := by
  have h := setUIStateSelector_dispatches_one_action (V := Nat)
    (some (Id.str "k")) () [("x", 5)] (by decide)
  simpa [resolveOpt, getStringFromId] using h

/-- C5 counterexample: an id that resolves to the empty string (a function
id returning the empty string) does not make the read or the write throw —
both complete without error, contradicting the claim that a read or write
with an empty resolved id throws a configuration error. -/
theorem empty_resolved_id_not_fatal :
    resolveOpt (some (Id.func (fun _ : Unit => some ""))) () = some ""
    ∧ exceptOk (uiStateSelector (V := Nat)
        (AppState.mk (some (UIStateBranch.mk [])))
        (ConnectProps.mk (some (Id.func (fun _ : Unit => some ""))) none ())) = true
    ∧ exceptOk (setUIStateSelector (V := Nat)
        (some (Id.func (fun _ : Unit => some ""))) () []) = true :=
  ⟨rfl, rfl, rfl⟩

/-- C5 amended: with the branch present, a read (`uiStateSelector`) and a
write (the setter from `setUIStateSelector`) throw a configuration error
exactly when the `uiStateId` prop itself is falsy (absent, undefined, or
the empty-string literal); a function id that resolves to an empty or
undefined value does not throw — the operation proceeds with the
unresolved key. -/
theorem read_write_throw_iff_prop_falsy {V P : Type} (br : UIStateBranch V)
    (u : Option (Id P)) (p : P) (st : List (String × V)) :
    exceptOk (uiStateSelector (AppState.mk (some br)) (ConnectProps.mk u none p))
      = jsIdTruthy u
    ∧ exceptOk (setUIStateSelector (V := V) u p st) = jsIdTruthy u := by
  have hid := exceptOk_idSelector u p
  constructor
  · rw [← hid]
    cases hi : idSelector u p <;>
      simp [uiStateSelector, uiStateComponentsSelector, uiStateBranchSelector,
        uiStateBranchSelectorSelector, defaultUIStateBranchSelector, Except.map,
        hi, exceptOk]
  · exact (exceptOk_map (fun i => [ReduxAction.setUIState i st])
      (idSelector u p)).trans hid

/-- C10: `merge` with explicit allocation returns a reference distinct from
both input references, leaves every previously allocated object (the inputs
included) unchanged, and the fresh object holds the shallow union. -/
theorem mergeAlloc_fresh {V : Type} (h : Heap V) (r1 r2 : Nat)
    (h1 : r1 < h.length) (h2 : r2 < h.length) :
    (mergeAlloc h r1 r2).2 ≠ r1
    ∧ (mergeAlloc h r1 r2).2 ≠ r2
    ∧ (∀ r, r < h.length → (mergeAlloc h r1 r2).1.getD r [] = h.getD r [])
    ∧ (mergeAlloc h r1 r2).1.getD (mergeAlloc h r1 r2).2 []
        = merge (h.getD r1 []) (h.getD r2 []) := by
  refine ⟨?_, ?_, ?_, ?_⟩
  · simp only [mergeAlloc]
    omega
  · simp only [mergeAlloc]
    omega
  · intro r hr
    simp only [mergeAlloc]
    exact List.getD_append _ _ _ _ hr
  · simp only [mergeAlloc]
    rw [List.getD_append_right _ _ _ _ (Nat.le_refl _)]
    simp

theorem mergeAlloc_fresh_check :
    (mergeAlloc [[("a", (1 : Nat))], []] 0 1).2 ≠ 0
    ∧ (mergeAlloc [[("a", (1 : Nat))], []] 0 1).2 ≠ 1
    ∧ (mergeAlloc [[("a", (1 : Nat))], []] 0 1).1.getD 0 [] = [("a", 1)] := by
  have h := mergeAlloc_fresh [[("a", (1 : Nat))], []] 0 1 (by decide) (by decide)
  refine ⟨h.1, h.2.1, ?_⟩
  rw [h.2.2.1 0 (by decide)]
  decide

end ReduxUIState
